import Mathlib

/-!
Shallow embedding of the debtq debt ledger and settlement engine
(src/internal/config/config.go, storage section, together with the data
model of src/internal/models/models.go).

Amounts (Go `float64`, used by the ledger as exact decimal currency values;
the settlement code is division-free, so every property below is a
linear-ordered-ring fact insensitive to the granularity of amounts) are
modelled as integers, timestamps
(`time.Time`) as natural numbers, generated identifiers (`GenerateID`) as
explicitly passed strings, and the in-memory transaction slice
`s.data.DebtTransactions` as a `List DebtTransaction`.  Persistence
(`s.Save()`) is outside the ledger core and is dropped; every operation
returns the new in-memory list.
-/

namespace DebtQ

/-- Go `models.TransactionType` with its two constants `Borrowed` and `Lent`. -/
inductive TransactionType
  | Borrowed
  | Lent
  deriving DecidableEq

/-- Go `models.DebtTransaction`.  The field `Type` is called `txType` here
(`Type` is a Lean keyword); `SettlementAmount` and `SettlementNote` are the
fields written by the settlement code in config.go (spec §3). -/
structure DebtTransaction where
  id : String
  txType : TransactionType
  personName : String
  amount : ℤ
  description : String
  date : Nat
  dueDate : Option Nat
  isSettled : Bool
  settledDate : Option Nat
  settlementAmount : ℤ
  settlementNote : String
  createdAt : Nat
  deriving DecidableEq

/-- Go `AddDebtTransaction`: append a fresh unsettled record; the Go zero
values of the settlement fields are `nil`, `0` and `""`. -/
def addDebtTransaction (newId : String) (txType : TransactionType) (personName : String)
    (amount : ℤ) (description : String) (date : Nat) (dueDate : Option Nat) (now : Nat)
    (txs : List DebtTransaction) : List DebtTransaction :=
  txs ++ [{ id := newId
            txType := txType
            personName := personName
            amount := amount
            description := description
            date := date
            dueDate := dueDate
            isSettled := false
            settledDate := none
            settlementAmount := 0
            settlementNote := ""
            createdAt := now }]

/-- The four assignments performed by every full-settlement site in config.go:
`IsSettled = true`, `SettledDate = &now`, `SettlementAmount = tx.Amount`,
`SettlementNote = note`. -/
def settleFull (now : Nat) (note : String) (tx : DebtTransaction) : DebtTransaction :=
  { tx with
      isSettled := true
      settledDate := some now
      settlementAmount := tx.amount
      settlementNote := note }

/-- The single loop shared by `GetPersonNetBalance` and the balance
computation at the top of `SettleAmountForPerson`: accumulate
`(totalLent, totalBorrowed)` over the person's unsettled records. -/
def personTotals (personName : String) (txs : List DebtTransaction) : ℤ × ℤ :=
  txs.foldl
    (fun acc tx =>
      if tx.personName = personName ∧ tx.isSettled = false then
        if tx.txType = TransactionType.Lent then (acc.1 + tx.amount, acc.2)
        else (acc.1, acc.2 + tx.amount)
      else acc)
    (0, 0)

/-- Go `GetPersonNetBalance`: `totalLent - totalBorrowed`. -/
def getPersonNetBalance (personName : String) (txs : List DebtTransaction) : ℤ :=
  (personTotals personName txs).1 - (personTotals personName txs).2

/-- One allocation loop of `SettleAmountForPerson` (the same loop body occurs
four times in config.go, twice per sign of the net balance): walk the list,
and for each unsettled record of the given person and kind, while the
remaining budget is positive, either settle it fully (when its amount fits
the budget) or reduce its amount in place by the budget and exhaust the
budget.  Returns the new list, the remaining budget, and the accumulated
settled amount (the offset loops of config.go ignore the latter). -/
def allocatePass (personName : String) (k : TransactionType) (now : Nat) (note : String) :
    List DebtTransaction → ℤ → ℤ → List DebtTransaction × ℤ × ℤ
  | [], remaining, settled => ([], remaining, settled)
  | tx :: rest, remaining, settled =>
    if tx.personName = personName ∧ tx.txType = k ∧ tx.isSettled = false ∧ 0 < remaining then
      if tx.amount ≤ remaining then
        let out := allocatePass personName k now note rest (remaining - tx.amount)
          (settled + tx.amount)
        (settleFull now note tx :: out.1, out.2)
      else
        let out := allocatePass personName k now note rest 0 (settled + remaining)
        ({ tx with amount := tx.amount - remaining } :: out.1, out.2)
    else
      let out := allocatePass personName k now note rest remaining settled
      (tx :: out.1, out.2)

/-- The `netBalance == 0` loop of `SettleAmountForPerson`: settle every
unsettled record of the person fully, accumulating the settled total and
whether any record matched (`hasUnsettled`). -/
def settleAllPass (personName : String) (now : Nat) (note : String) :
    List DebtTransaction → List DebtTransaction × ℤ × Bool
  | [] => ([], 0, false)
  | tx :: rest =>
    let out := settleAllPass personName now note rest
    if tx.personName = personName ∧ tx.isSettled = false then
      (settleFull now note tx :: out.1, tx.amount + out.2.1, true)
    else
      (tx :: out.1, out.2.1, out.2.2)

/-- Go `SettleAmountForPerson`.  Mirrors the three branches on the sign of
the net balance, the clamp `if remainingToSettle == 0 || remainingToSettle >
netBalance { remainingToSettle = netBalance }` (symmetrically with
`-netBalance` for negative balances), the two allocation loops per branch
(dominant side with the clamped budget, then the offset side with
`offsetSettle`, where config.go initialises `offsetSettle := netBalance` in
both branches and only rewrites it to `-netBalance` under the dead test
`offsetSettle == 0`), and the final `if settled > 0` on the returned total. -/
def settleAmountForPerson (now : Nat) (personName : String) (amount : ℤ)
    (settlementNote : String) (txs : List DebtTransaction) : List DebtTransaction × ℤ :=
  let totals := personTotals personName txs
  let netBalance := totals.1 - totals.2
  if 0 < netBalance then
    let remainingToSettle := if amount = 0 ∨ netBalance < amount then netBalance else amount
    let pass1 := allocatePass personName TransactionType.Lent now settlementNote txs
      remainingToSettle 0
    let offsetSettle := if netBalance = 0 then netBalance else netBalance
    let pass2 := allocatePass personName TransactionType.Borrowed now settlementNote pass1.1
      offsetSettle 0
    (pass2.1, if 0 < pass1.2.2 then pass1.2.2 else 0)
  else if netBalance < 0 then
    let remainingToSettle := if amount = 0 ∨ -netBalance < amount then -netBalance else amount
    let pass1 := allocatePass personName TransactionType.Borrowed now settlementNote txs
      remainingToSettle 0
    let offsetSettle := if netBalance = 0 then -netBalance else netBalance
    let pass2 := allocatePass personName TransactionType.Lent now settlementNote pass1.1
      offsetSettle 0
    (pass2.1, if 0 < pass1.2.2 then pass1.2.2 else 0)
  else
    let out := settleAllPass personName now settlementNote txs
    if out.2.2 = false then (txs, 0)
    else (out.1, if 0 < out.2.1 then out.2.1 else 0)

/-- The record created by the split branch of Go `SettleTransaction`:
a fresh, already-settled record for the settled portion, copying the kind,
person, date, due date and description (with the "(partial settlement)"
marker) of the original. -/
def splitRecord (newId : String) (now : Nat) (note : String) (amount : ℤ)
    (tx : DebtTransaction) : DebtTransaction :=
  { id := newId
    txType := tx.txType
    personName := tx.personName
    amount := amount
    description := tx.description ++ " (partial settlement)"
    date := tx.date
    dueDate := tx.dueDate
    isSettled := true
    settledDate := some now
    settlementAmount := amount
    settlementNote := note
    createdAt := now }

/-- Go `SettleTransaction`: find the first record with the given id; if
`amount >= tx.Amount` settle it fully in place, otherwise reduce its amount
by `amount` and append a new settled record at the end of the list.  The
boolean is `false` exactly on the Go error path `"transaction not found"`,
on which the list is returned unchanged (the Go loop mutates nothing before
that return). -/
def settleTransaction (now : Nat) (newId : String) (id : String) (amount : ℤ)
    (note : String) : List DebtTransaction → List DebtTransaction × Bool
  | [] => ([], false)
  | tx :: rest =>
    if tx.id = id then
      if tx.amount ≤ amount then
        (settleFull now note tx :: rest, true)
      else
        ({ tx with amount := tx.amount - amount } :: rest ++ [splitRecord newId now note amount tx],
          true)
    else
      let out := settleTransaction now newId id amount note rest
      (tx :: out.1, out.2)

/-- First record with the given id, as Go's linear scans locate it. -/
def findById (id : String) (txs : List DebtTransaction) : Option DebtTransaction :=
  txs.find? fun tx => decide (tx.id = id)

/-- Sum of the unsettled amounts of one person and kind (the value the
inline total loops of config.go compute per kind). -/
def totalUnsettledFor (personName : String) (k : TransactionType)
    (txs : List DebtTransaction) : ℤ :=
  ((txs.filter fun tx =>
      decide (tx.personName = personName ∧ tx.txType = k ∧ tx.isSettled = false)).map
    DebtTransaction.amount).sum

/-- Go `GetAllDebtsForPerson`. -/
def transactionsFor (personName : String) (txs : List DebtTransaction) :
    List DebtTransaction :=
  txs.filter fun tx => decide (tx.personName = personName)

/-- Go `GetUnsettledDebtsForPerson`. -/
def unsettledFor (personName : String) (txs : List DebtTransaction) :
    List DebtTransaction :=
  txs.filter fun tx => decide (tx.personName = personName ∧ tx.isSettled = false)

/-- Replace the first record with the given id, leaving the rest unchanged
(the in-place update pattern of the Go loops that match on `tx.ID == id`). -/
def updateFirstById (id : String) (f : DebtTransaction → DebtTransaction) :
    List DebtTransaction → List DebtTransaction
  | [] => []
  | tx :: rest => if tx.id = id then f tx :: rest else tx :: updateFirstById id f rest

/-- Unsettled record as built for concrete test stores. -/
def mkTx (id : String) (k : TransactionType) (personName : String) (amount : ℤ) :
    DebtTransaction :=
  { id := id
    txType := k
    personName := personName
    amount := amount
    description := ""
    date := 0
    dueDate := none
    isSettled := false
    settledDate := none
    settlementAmount := 0
    settlementNote := ""
    createdAt := 0 }

/-- Store states reachable through the public mutating operations, with the
caller discipline the surrounding application enforces for the two
id-respectively record-creating operations: `addDebtTransaction` and
`settleTransaction` are invoked with positive amounts, while
`settleAmountForPerson` may receive any amount (its empty-input path passes
the raw balance through). -/
inductive Reachable : List DebtTransaction → Prop
  | empty : Reachable []
  | add (newId : String) (k : TransactionType) (personName : String) (amount : ℤ)
      (description : String) (date : Nat) (dueDate : Option Nat) (now : Nat)
      (txs : List DebtTransaction) (ha : 0 < amount) :
      Reachable txs →
      Reachable (addDebtTransaction newId k personName amount description date dueDate now txs)
  | settleOne (now : Nat) (newId id : String) (amount : ℤ) (note : String)
      (txs : List DebtTransaction) (ha : 0 < amount) :
      Reachable txs → Reachable (settleTransaction now newId id amount note txs).1
  | settlePerson (now : Nat) (personName : String) (amount : ℤ) (note : String)
      (txs : List DebtTransaction) :
      Reachable txs → Reachable (settleAmountForPerson now personName amount note txs).1

/-- Scenario 1 of the spec: Lent 1000 and Borrowed 300 to "John". -/
def scenario1 : List DebtTransaction :=
  [mkTx "t1" TransactionType.Lent "John" 1000, mkTx "t2" TransactionType.Borrowed "John" 300]

/-- Scenario 2 of the spec: Lent 500 to "Asha". -/
def scenario2 : List DebtTransaction :=
  [mkTx "a1" TransactionType.Lent "Asha" 500]

/-- Scenario 3 of the spec: Lent 100 and Borrowed 100 to "Ravi". -/
def scenario3 : List DebtTransaction :=
  [mkTx "r1" TransactionType.Lent "Ravi" 100, mkTx "r2" TransactionType.Borrowed "Ravi" 100]

/-- A borrowed-dominant store: Borrowed 300 and Lent 100 for "Priya"
(net balance -200). -/
def borrowedDominantStore : List DebtTransaction :=
  [mkTx "b1" TransactionType.Borrowed "Priya" 300, mkTx "l1" TransactionType.Lent "Priya" 100]

/-- A store whose only record is already settled. -/
def settledStore : List DebtTransaction :=
  [{ mkTx "s1" TransactionType.Lent "Mia" 100 with
      isSettled := true
      settledDate := some 1 }]

lemma txType_eq_borrowed_of_ne {k : TransactionType} (h : k ≠ TransactionType.Lent) :
    k = TransactionType.Borrowed := by
  cases k
  · rfl
  · exact absurd rfl h

lemma totalUnsettledFor_nil (p : String) (k : TransactionType) :
    totalUnsettledFor p k [] = 0 := rfl

lemma totalUnsettledFor_cons (p : String) (k : TransactionType) (tx : DebtTransaction)
    (txs : List DebtTransaction) :
    totalUnsettledFor p k (tx :: txs)
      = (if tx.personName = p ∧ tx.txType = k ∧ tx.isSettled = false then tx.amount else 0)
        + totalUnsettledFor p k txs := by
  by_cases h : tx.personName = p ∧ tx.txType = k ∧ tx.isSettled = false
  · simp [totalUnsettledFor, List.filter_cons, h]
  · simp [totalUnsettledFor, List.filter_cons, h]

lemma totalUnsettledFor_nonneg (p : String) (k : TransactionType)
    (txs : List DebtTransaction)
    (hpos : ∀ tx ∈ txs, tx.personName = p → tx.txType = k → tx.isSettled = false →
      0 < tx.amount) :
    0 ≤ totalUnsettledFor p k txs := by
  induction txs with
  | nil => simp [totalUnsettledFor_nil]
  | cons tx rest ih =>
    rw [totalUnsettledFor_cons]
    have hrest : 0 ≤ totalUnsettledFor p k rest :=
      ih fun t ht => hpos t (List.mem_cons_of_mem _ ht)
    by_cases h : tx.personName = p ∧ tx.txType = k ∧ tx.isSettled = false
    · have := hpos tx (List.mem_cons_self _ _) h.1 h.2.1 h.2.2
      simp only [h, if_true]
      omega
    · simp only [h, if_false]
      omega

lemma personTotals_go (p : String) (txs : List DebtTransaction) :
    ∀ a b : ℤ,
      txs.foldl
        (fun acc tx =>
          if tx.personName = p ∧ tx.isSettled = false then
            if tx.txType = TransactionType.Lent then (acc.1 + tx.amount, acc.2)
            else (acc.1, acc.2 + tx.amount)
          else acc)
        (a, b)
      = (a + totalUnsettledFor p TransactionType.Lent txs,
         b + totalUnsettledFor p TransactionType.Borrowed txs) := by
  induction txs with
  | nil => intro a b; simp [totalUnsettledFor_nil]
  | cons tx rest ih =>
    intro a b
    rw [List.foldl_cons]
    by_cases h1 : tx.personName = p ∧ tx.isSettled = false
    · by_cases h2 : tx.txType = TransactionType.Lent
      · have hL : tx.personName = p ∧ tx.txType = TransactionType.Lent ∧ tx.isSettled = false :=
          ⟨h1.1, h2, h1.2⟩
        have hB : ¬(tx.personName = p ∧ tx.txType = TransactionType.Borrowed ∧
            tx.isSettled = false) := by
          intro hc
          rw [h2] at hc
          exact absurd hc.2.1 (by simp)
        rw [if_pos h1, if_pos h2, ih, totalUnsettledFor_cons, totalUnsettledFor_cons,
          if_pos hL, if_neg hB]
        simp only [Prod.ext_iff]
        refine ⟨by ring, by ring⟩
      · have hk := txType_eq_borrowed_of_ne h2
        have hB : tx.personName = p ∧ tx.txType = TransactionType.Borrowed ∧
            tx.isSettled = false := ⟨h1.1, hk, h1.2⟩
        have hL : ¬(tx.personName = p ∧ tx.txType = TransactionType.Lent ∧
            tx.isSettled = false) := by
          intro hc
          exact absurd hc.2.1 h2
        rw [if_pos h1, if_neg h2, ih, totalUnsettledFor_cons, totalUnsettledFor_cons,
          if_neg hL, if_pos hB]
        simp only [Prod.ext_iff]
        refine ⟨by ring, by ring⟩
    · have hL : ¬(tx.personName = p ∧ tx.txType = TransactionType.Lent ∧
          tx.isSettled = false) := by
        intro hc
        exact h1 ⟨hc.1, hc.2.2⟩
      have hB : ¬(tx.personName = p ∧ tx.txType = TransactionType.Borrowed ∧
          tx.isSettled = false) := by
        intro hc
        exact h1 ⟨hc.1, hc.2.2⟩
      rw [if_neg h1, ih, totalUnsettledFor_cons, totalUnsettledFor_cons,
        if_neg hL, if_neg hB]
      simp only [Prod.ext_iff]
      refine ⟨by ring, by ring⟩

lemma personTotals_eq (p : String) (txs : List DebtTransaction) :
    personTotals p txs
      = (totalUnsettledFor p TransactionType.Lent txs,
         totalUnsettledFor p TransactionType.Borrowed txs) := by
  have h := personTotals_go p txs 0 0
  simpa [personTotals] using h

lemma getPersonNetBalance_eq (p : String) (txs : List DebtTransaction) :
    getPersonNetBalance p txs
      = totalUnsettledFor p TransactionType.Lent txs
        - totalUnsettledFor p TransactionType.Borrowed txs := by
  rw [getPersonNetBalance, personTotals_eq]

lemma allocatePass_nonpos (p : String) (k : TransactionType) (now : Nat) (note : String)
    (txs : List DebtTransaction) : ∀ r s : ℤ, r ≤ 0 →
    allocatePass p k now note txs r s = (txs, r, s) := by
  induction txs with
  | nil => intro r s _; rfl
  | cons tx rest ih =>
    intro r s hr
    have hg : ¬(tx.personName = p ∧ tx.txType = k ∧ tx.isSettled = false ∧ 0 < r) := by
      intro hc
      omega
    simp only [allocatePass, if_neg hg, ih r s hr]

lemma allocatePass_total (p : String) (k : TransactionType) (now : Nat) (note : String)
    (txs : List DebtTransaction) : ∀ r s : ℤ, 0 ≤ r →
    (∀ tx ∈ txs, tx.personName = p → tx.txType = k → tx.isSettled = false → 0 < tx.amount) →
    totalUnsettledFor p k (allocatePass p k now note txs r s).1
      = totalUnsettledFor p k txs - min r (totalUnsettledFor p k txs) := by
  induction txs with
  | nil =>
    intro r s hr _
    simp only [allocatePass, totalUnsettledFor_nil]
    omega
  | cons tx rest ih =>
    intro r s hr hpos
    have hposrest : ∀ t ∈ rest, t.personName = p → t.txType = k → t.isSettled = false →
        0 < t.amount := fun t ht => hpos t (List.mem_cons_of_mem _ ht)
    have hTrest : 0 ≤ totalUnsettledFor p k rest :=
      totalUnsettledFor_nonneg _ _ _ hposrest
    by_cases hr0 : 0 < r
    · by_cases hm : tx.personName = p ∧ tx.txType = k ∧ tx.isSettled = false
      · have hg : tx.personName = p ∧ tx.txType = k ∧ tx.isSettled = false ∧ 0 < r :=
          ⟨hm.1, hm.2.1, hm.2.2, hr0⟩
        have htx : 0 < tx.amount := hpos tx (List.mem_cons_self _ _) hm.1 hm.2.1 hm.2.2
        by_cases hle : tx.amount ≤ r
        · have hnm : ¬((settleFull now note tx).personName = p ∧
              (settleFull now note tx).txType = k ∧
              (settleFull now note tx).isSettled = false) := by
            simp [settleFull]
          simp only [allocatePass, if_pos hg, if_pos hle]
          rw [totalUnsettledFor_cons, if_neg hnm,
            ih (r - tx.amount) (s + tx.amount) (by omega) hposrest,
            totalUnsettledFor_cons, if_pos hm]
          omega
        · have hm' : ({ tx with amount := tx.amount - r }).personName = p ∧
              ({ tx with amount := tx.amount - r }).txType = k ∧
              ({ tx with amount := tx.amount - r }).isSettled = false := hm
          simp only [allocatePass, if_pos hg, if_neg hle]
          rw [allocatePass_nonpos p k now note rest 0 (s + r) le_rfl,
            totalUnsettledFor_cons, if_pos hm', totalUnsettledFor_cons, if_pos hm]
          show tx.amount - r + totalUnsettledFor p k rest
            = tx.amount + totalUnsettledFor p k rest
              - min r (tx.amount + totalUnsettledFor p k rest)
          omega
      · have hg : ¬(tx.personName = p ∧ tx.txType = k ∧ tx.isSettled = false ∧ 0 < r) := by
          intro hc
          exact hm ⟨hc.1, hc.2.1, hc.2.2.1⟩
        simp only [allocatePass, if_neg hg]
        rw [totalUnsettledFor_cons, if_neg hm, ih r s hr hposrest,
          totalUnsettledFor_cons, if_neg hm]
        omega
    · have h0 : 0 ≤ totalUnsettledFor p k (tx :: rest) :=
        totalUnsettledFor_nonneg _ _ _ hpos
      rw [allocatePass_nonpos p k now note (tx :: rest) r s (by omega)]
      show totalUnsettledFor p k (tx :: rest)
        = totalUnsettledFor p k (tx :: rest) - min r (totalUnsettledFor p k (tx :: rest))
      omega

lemma allocatePass_pos (p : String) (k : TransactionType) (now : Nat) (note : String)
    (txs : List DebtTransaction) : ∀ r s : ℤ,
    (∀ tx ∈ txs, 0 < tx.amount) →
    ∀ tx ∈ (allocatePass p k now note txs r s).1, 0 < tx.amount := by
  induction txs with
  | nil => intro r s _ tx htx; simp [allocatePass] at htx
  | cons tx rest ih =>
    intro r s hpos t ht
    have hhead : 0 < tx.amount := hpos tx (List.mem_cons_self _ _)
    have hrest : ∀ u ∈ rest, 0 < u.amount := fun u hu => hpos u (List.mem_cons_of_mem _ hu)
    by_cases hg : tx.personName = p ∧ tx.txType = k ∧ tx.isSettled = false ∧ 0 < r
    · by_cases hle : tx.amount ≤ r
      · simp only [allocatePass, if_pos hg, if_pos hle] at ht
        rcases List.mem_cons.mp ht with h | h
        · rw [h]
          exact hhead
        · exact ih (r - tx.amount) (s + tx.amount) hrest t h
      · simp only [allocatePass, if_pos hg, if_neg hle] at ht
        rcases List.mem_cons.mp ht with h | h
        · rw [h]
          show 0 < tx.amount - r
          omega
        · exact ih 0 (s + r) hrest t h
    · simp only [allocatePass, if_neg hg] at ht
      rcases List.mem_cons.mp ht with h | h
      · rw [h]
        exact hhead
      · exact ih r s hrest t h

lemma allocatePass_total_other (p : String) (k : TransactionType) (now : Nat) (note : String)
    (q : String) (k' : TransactionType) (h : ¬(q = p ∧ k' = k))
    (txs : List DebtTransaction) : ∀ r s : ℤ,
    totalUnsettledFor q k' (allocatePass p k now note txs r s).1
      = totalUnsettledFor q k' txs := by
  induction txs with
  | nil => intro r s; rfl
  | cons tx rest ih =>
    intro r s
    by_cases hg : tx.personName = p ∧ tx.txType = k ∧ tx.isSettled = false ∧ 0 < r
    · have hnm : ¬(tx.personName = q ∧ tx.txType = k' ∧ tx.isSettled = false) := by
        intro hc
        exact h ⟨hc.1.symm.trans hg.1, hc.2.1.symm.trans hg.2.1⟩
      by_cases hle : tx.amount ≤ r
      · have hnm2 : ¬((settleFull now note tx).personName = q ∧
            (settleFull now note tx).txType = k' ∧
            (settleFull now note tx).isSettled = false) := by
          simp [settleFull]
        simp only [allocatePass, if_pos hg, if_pos hle]
        rw [totalUnsettledFor_cons, if_neg hnm2, totalUnsettledFor_cons, if_neg hnm,
          ih (r - tx.amount) (s + tx.amount)]
      · have hnm2 : ¬(({ tx with amount := tx.amount - r }).personName = q ∧
            ({ tx with amount := tx.amount - r }).txType = k' ∧
            ({ tx with amount := tx.amount - r }).isSettled = false) := hnm
        simp only [allocatePass, if_pos hg, if_neg hle]
        rw [totalUnsettledFor_cons, if_neg hnm2, totalUnsettledFor_cons, if_neg hnm,
          ih 0 (s + r)]
    · simp only [allocatePass, if_neg hg]
      rw [totalUnsettledFor_cons, totalUnsettledFor_cons, ih r s]

lemma transactionsFor_nil (q : String) : transactionsFor q [] = [] := rfl

lemma transactionsFor_cons (q : String) (tx : DebtTransaction) (txs : List DebtTransaction) :
    transactionsFor q (tx :: txs)
      = if tx.personName = q then tx :: transactionsFor q txs else transactionsFor q txs := by
  by_cases h : tx.personName = q
  · simp [transactionsFor, List.filter_cons, h]
  · simp [transactionsFor, List.filter_cons, h]

lemma transactionsFor_append (q : String) (l l' : List DebtTransaction) :
    transactionsFor q (l ++ l') = transactionsFor q l ++ transactionsFor q l' := by
  simp [transactionsFor, List.filter_append]

lemma allocatePass_transactionsFor (p : String) (k : TransactionType) (now : Nat)
    (note : String) (q : String) (hq : q ≠ p) (txs : List DebtTransaction) : ∀ r s : ℤ,
    transactionsFor q (allocatePass p k now note txs r s).1 = transactionsFor q txs := by
  induction txs with
  | nil => intro r s; rfl
  | cons tx rest ih =>
    intro r s
    by_cases hg : tx.personName = p ∧ tx.txType = k ∧ tx.isSettled = false ∧ 0 < r
    · have hne : ¬(tx.personName = q) := by
        rw [hg.1]
        exact fun hc => hq hc.symm
      by_cases hle : tx.amount ≤ r
      · simp only [allocatePass, if_pos hg, if_pos hle]
        rw [transactionsFor_cons, transactionsFor_cons]
        have hne' : ¬((settleFull now note tx).personName = q) := hne
        rw [if_neg hne', if_neg hne]
        exact ih _ _
      · simp only [allocatePass, if_pos hg, if_neg hle]
        rw [transactionsFor_cons, transactionsFor_cons]
        have hne' : ¬(({ tx with amount := tx.amount - r }).personName = q) := hne
        rw [if_neg hne', if_neg hne]
        exact ih _ _
    · simp only [allocatePass, if_neg hg]
      rw [transactionsFor_cons, transactionsFor_cons]
      by_cases hp : tx.personName = q
      · rw [if_pos hp, if_pos hp, ih r s]
      · rw [if_neg hp, if_neg hp]
        exact ih _ _

lemma settleAllPass_fst (p : String) (now : Nat) (note : String)
    (txs : List DebtTransaction) :
    (settleAllPass p now note txs).1
      = txs.map fun tx =>
          if tx.personName = p ∧ tx.isSettled = false then settleFull now note tx else tx := by
  induction txs with
  | nil => rfl
  | cons tx rest ih =>
    by_cases h : tx.personName = p ∧ tx.isSettled = false
    · simp only [settleAllPass, if_pos h, List.map_cons, ih]
    · simp only [settleAllPass, if_neg h, List.map_cons, ih]

lemma settleAllPass_sum (p : String) (now : Nat) (note : String)
    (txs : List DebtTransaction) :
    (settleAllPass p now note txs).2.1
      = totalUnsettledFor p TransactionType.Lent txs
        + totalUnsettledFor p TransactionType.Borrowed txs := by
  induction txs with
  | nil => simp [settleAllPass, totalUnsettledFor_nil]
  | cons tx rest ih =>
    rw [totalUnsettledFor_cons, totalUnsettledFor_cons]
    by_cases h : tx.personName = p ∧ tx.isSettled = false
    · by_cases h2 : tx.txType = TransactionType.Lent
      · have hL : tx.personName = p ∧ tx.txType = TransactionType.Lent ∧ tx.isSettled = false :=
          ⟨h.1, h2, h.2⟩
        have hB : ¬(tx.personName = p ∧ tx.txType = TransactionType.Borrowed ∧
            tx.isSettled = false) := by
          intro hc
          rw [h2] at hc
          exact absurd hc.2.1 (by simp)
        simp only [settleAllPass, if_pos h, ih]
        rw [if_pos hL, if_neg hB]
        ring
      · have hk := txType_eq_borrowed_of_ne h2
        have hB : tx.personName = p ∧ tx.txType = TransactionType.Borrowed ∧
            tx.isSettled = false := ⟨h.1, hk, h.2⟩
        have hL : ¬(tx.personName = p ∧ tx.txType = TransactionType.Lent ∧
            tx.isSettled = false) := fun hc => absurd hc.2.1 h2
        simp only [settleAllPass, if_pos h, ih]
        rw [if_neg hL, if_pos hB]
        ring
    · have hL : ¬(tx.personName = p ∧ tx.txType = TransactionType.Lent ∧
          tx.isSettled = false) := fun hc => h ⟨hc.1, hc.2.2⟩
      have hB : ¬(tx.personName = p ∧ tx.txType = TransactionType.Borrowed ∧
          tx.isSettled = false) := fun hc => h ⟨hc.1, hc.2.2⟩
      simp only [settleAllPass, if_neg h, ih]
      rw [if_neg hL, if_neg hB]
      ring

lemma settleAllPass_flag (p : String) (now : Nat) (note : String)
    (txs : List DebtTransaction) :
    (settleAllPass p now note txs).2.2 = true
      ↔ ∃ tx ∈ txs, tx.personName = p ∧ tx.isSettled = false := by
  induction txs with
  | nil => simp [settleAllPass]
  | cons tx rest ih =>
    by_cases h : tx.personName = p ∧ tx.isSettled = false
    · simp only [settleAllPass, if_pos h]
      constructor
      · intro _
        exact ⟨tx, List.mem_cons_self _ _, h⟩
      · intro _
        trivial
    · simp only [settleAllPass, if_neg h]
      rw [ih]
      constructor
      · rintro ⟨t, ht, hp⟩
        exact ⟨t, List.mem_cons_of_mem _ ht, hp⟩
      · rintro ⟨t, ht, hp⟩
        rcases List.mem_cons.mp ht with rfl | ht'
        · exact absurd hp h
        · exact ⟨t, ht', hp⟩

lemma settleAllPass_transactionsFor (p : String) (now : Nat) (note : String)
    (q : String) (hq : q ≠ p) (txs : List DebtTransaction) :
    transactionsFor q (settleAllPass p now note txs).1 = transactionsFor q txs := by
  induction txs with
  | nil => rfl
  | cons tx rest ih =>
    by_cases h : tx.personName = p ∧ tx.isSettled = false
    · have hne : ¬(tx.personName = q) := by
        rw [h.1]
        exact fun hc => hq hc.symm
      simp only [settleAllPass, if_pos h]
      rw [transactionsFor_cons, transactionsFor_cons]
      have hne' : ¬((settleFull now note tx).personName = q) := hne
      rw [if_neg hne', if_neg hne, ih]
    · simp only [settleAllPass, if_neg h]
      rw [transactionsFor_cons, transactionsFor_cons]
      by_cases hp : tx.personName = q
      · rw [if_pos hp, if_pos hp, ih]
      · rw [if_neg hp, if_neg hp, ih]

lemma findById_nil (id : String) : findById id [] = none := rfl

lemma findById_cons_pos (id : String) (tx : DebtTransaction) (txs : List DebtTransaction)
    (h : tx.id = id) : findById id (tx :: txs) = some tx := by
  simp [findById, List.find?_cons, h]

lemma findById_cons_neg (id : String) (tx : DebtTransaction) (txs : List DebtTransaction)
    (h : ¬(tx.id = id)) : findById id (tx :: txs) = findById id txs := by
  simp [findById, List.find?_cons, h]

lemma updateFirstById_length (id : String) (f : DebtTransaction → DebtTransaction)
    (txs : List DebtTransaction) : (updateFirstById id f txs).length = txs.length := by
  induction txs with
  | nil => rfl
  | cons tx rest ih =>
    by_cases h : tx.id = id
    · simp [updateFirstById, if_pos h]
    · simp [updateFirstById, if_neg h, ih]

lemma findById_updateFirstById (id : String) (f : DebtTransaction → DebtTransaction)
    (hf : ∀ t, (f t).id = t.id) (txs : List DebtTransaction) :
    findById id (updateFirstById id f txs) = (findById id txs).map f := by
  induction txs with
  | nil => rfl
  | cons tx rest ih =>
    by_cases h : tx.id = id
    · rw [updateFirstById, if_pos h, findById_cons_pos _ _ _ ((hf tx).trans h),
        findById_cons_pos _ _ _ h, Option.map_some']
    · rw [updateFirstById, if_neg h, findById_cons_neg _ _ _ h, findById_cons_neg _ _ _ h, ih]

lemma settleTransaction_not_found (now : Nat) (newId id : String) (amount : ℤ)
    (note : String) (txs : List DebtTransaction) (h : findById id txs = none) :
    settleTransaction now newId id amount note txs = (txs, false) := by
  induction txs with
  | nil => rfl
  | cons tx rest ih =>
    by_cases h0 : tx.id = id
    · rw [findById_cons_pos _ _ _ h0] at h
      exact absurd h (by simp)
    · rw [findById_cons_neg _ _ _ h0] at h
      simp only [settleTransaction, if_neg h0, ih h]

lemma settleTransaction_found_full (now : Nat) (newId id : String) (amount : ℤ)
    (note : String) (txs : List DebtTransaction) (tx : DebtTransaction)
    (hfind : findById id txs = some tx) (hle : tx.amount ≤ amount) :
    settleTransaction now newId id amount note txs
      = (updateFirstById id (settleFull now note) txs, true) := by
  induction txs with
  | nil => exact absurd hfind (by simp [findById_nil])
  | cons t rest ih =>
    by_cases h0 : t.id = id
    · rw [findById_cons_pos _ _ _ h0] at hfind
      have ht : t = tx := by
        injection hfind
      subst ht
      simp only [settleTransaction, if_pos h0, if_pos hle, updateFirstById]
    · rw [findById_cons_neg _ _ _ h0] at hfind
      simp only [settleTransaction, if_neg h0, ih hfind, updateFirstById]

lemma settleTransaction_split_found (now : Nat) (newId id : String) (amount : ℤ)
    (note : String) (txs : List DebtTransaction) (tx : DebtTransaction)
    (hfind : findById id txs = some tx) (hgt : amount < tx.amount) :
    settleTransaction now newId id amount note txs
      = (updateFirstById id (fun t => { t with amount := t.amount - amount }) txs
           ++ [splitRecord newId now note amount tx], true) := by
  induction txs with
  | nil => exact absurd hfind (by simp [findById_nil])
  | cons t rest ih =>
    by_cases h0 : t.id = id
    · rw [findById_cons_pos _ _ _ h0] at hfind
      have ht : t = tx := by
        injection hfind
      subst ht
      have hn : ¬(t.amount ≤ amount) := by omega
      simp only [settleTransaction, if_pos h0, if_neg hn, updateFirstById, List.cons_append]
    · rw [findById_cons_neg _ _ _ h0] at hfind
      simp only [settleTransaction, if_neg h0, ih hfind, updateFirstById, List.cons_append]

lemma settleTransaction_snd_false_iff (now : Nat) (newId id : String) (amount : ℤ)
    (note : String) (txs : List DebtTransaction) :
    (settleTransaction now newId id amount note txs).2 = false ↔ findById id txs = none := by
  induction txs with
  | nil => simp [settleTransaction, findById_nil]
  | cons tx rest ih =>
    by_cases h0 : tx.id = id
    · rw [findById_cons_pos _ _ _ h0]
      by_cases hle : tx.amount ≤ amount
      · simp [settleTransaction, if_pos h0, if_pos hle]
      · simp [settleTransaction, if_pos h0, if_neg hle]
    · rw [findById_cons_neg _ _ _ h0]
      simp only [settleTransaction, if_neg h0]
      exact ih

lemma settleTransaction_transactionsFor (now : Nat) (newId id : String) (amount : ℤ)
    (note : String) (q : String) (txs : List DebtTransaction) (tx : DebtTransaction)
    (hfind : findById id txs = some tx) (hp : ¬(tx.personName = q)) :
    transactionsFor q (settleTransaction now newId id amount note txs).1
      = transactionsFor q txs := by
  induction txs with
  | nil => exact absurd hfind (by simp [findById_nil])
  | cons t rest ih =>
    by_cases h0 : t.id = id
    · rw [findById_cons_pos _ _ _ h0] at hfind
      have ht : t = tx := by
        injection hfind
      subst ht
      by_cases hle : t.amount ≤ amount
      · simp only [settleTransaction, if_pos h0, if_pos hle]
        rw [transactionsFor_cons, transactionsFor_cons]
        have hp' : ¬((settleFull now note t).personName = q) := hp
        rw [if_neg hp', if_neg hp]
      · simp only [settleTransaction, if_pos h0, if_neg hle]
        rw [transactionsFor_cons, List.cons_append]
        have hp' : ¬(({ t with amount := t.amount - amount }).personName = q) := hp
        rw [transactionsFor_cons, if_neg hp', if_neg hp, transactionsFor_append]
        have hsp : transactionsFor q [splitRecord newId now note amount t] = [] := by
          have : ¬((splitRecord newId now note amount t).personName = q) := hp
          simp [transactionsFor, List.filter_cons, this]
        rw [hsp, List.append_nil]
    · rw [findById_cons_neg _ _ _ h0] at hfind
      simp only [settleTransaction, if_neg h0]
      rw [transactionsFor_cons, transactionsFor_cons]
      by_cases hq : t.personName = q
      · rw [if_pos hq, if_pos hq, ih hfind]
      · rw [if_neg hq, if_neg hq, ih hfind]

lemma totalUnsettledFor_via_transactionsFor (q : String) (k : TransactionType)
    (txs : List DebtTransaction) :
    totalUnsettledFor q k txs
      = (((transactionsFor q txs).filter fun tx =>
            decide (tx.txType = k ∧ tx.isSettled = false)).map DebtTransaction.amount).sum := by
  rw [transactionsFor, List.filter_filter, totalUnsettledFor]
  congr 1
  congr 1
  apply List.filter_congr
  intro tx _
  by_cases h1 : tx.personName = q <;> by_cases h2 : tx.txType = k <;>
    by_cases h3 : tx.isSettled = false <;> simp [h1, h2, h3]

lemma unsettledFor_via_transactionsFor (q : String) (txs : List DebtTransaction) :
    unsettledFor q txs
      = (transactionsFor q txs).filter fun tx => decide (tx.isSettled = false) := by
  rw [transactionsFor, List.filter_filter, unsettledFor]
  apply List.filter_congr
  intro tx _
  by_cases h1 : tx.personName = q <;> by_cases h3 : tx.isSettled = false <;> simp [h1, h3]

lemma getPersonNetBalance_congr (q : String) (l l' : List DebtTransaction)
    (h : transactionsFor q l = transactionsFor q l') :
    getPersonNetBalance q l = getPersonNetBalance q l' := by
  rw [getPersonNetBalance_eq, getPersonNetBalance_eq,
    totalUnsettledFor_via_transactionsFor q TransactionType.Lent l,
    totalUnsettledFor_via_transactionsFor q TransactionType.Borrowed l,
    totalUnsettledFor_via_transactionsFor q TransactionType.Lent l',
    totalUnsettledFor_via_transactionsFor q TransactionType.Borrowed l', h]

lemma unsettledFor_congr (q : String) (l l' : List DebtTransaction)
    (h : transactionsFor q l = transactionsFor q l') :
    unsettledFor q l = unsettledFor q l' := by
  rw [unsettledFor_via_transactionsFor, unsettledFor_via_transactionsFor, h]

lemma totalUnsettledFor_pos_of_mem (p : String) (k : TransactionType)
    (txs : List DebtTransaction) (tx : DebtTransaction) (htx : tx ∈ txs)
    (hp : tx.personName = p) (hk : tx.txType = k) (hs : tx.isSettled = false)
    (hpos : ∀ t ∈ txs, t.personName = p → t.txType = k → t.isSettled = false →
      0 < t.amount) :
    0 < totalUnsettledFor p k txs := by
  induction txs with
  | nil => simp at htx
  | cons t rest ih =>
    rw [totalUnsettledFor_cons]
    have hposrest : ∀ u ∈ rest, u.personName = p → u.txType = k → u.isSettled = false →
        0 < u.amount := fun u hu => hpos u (List.mem_cons_of_mem _ hu)
    have hrest : 0 ≤ totalUnsettledFor p k rest := totalUnsettledFor_nonneg _ _ _ hposrest
    rcases List.mem_cons.mp htx with rfl | hmem
    · rw [if_pos ⟨hp, hk, hs⟩]
      have := hpos tx (List.mem_cons_self _ _) hp hk hs
      omega
    · have hih := ih hmem hposrest
      by_cases hc : t.personName = p ∧ t.txType = k ∧ t.isSettled = false
      · have := hpos t (List.mem_cons_self _ _) hc.1 hc.2.1 hc.2.2
        rw [if_pos hc]
        omega
      · rw [if_neg hc]
        omega

lemma settleTransaction_amounts_pos (now : Nat) (newId id : String) (amount : ℤ)
    (note : String) (txs : List DebtTransaction) (ha : 0 < amount)
    (h : ∀ tx ∈ txs, 0 < tx.amount) :
    ∀ t ∈ (settleTransaction now newId id amount note txs).1, 0 < t.amount := by
  induction txs with
  | nil => intro t ht; simp [settleTransaction] at ht
  | cons tx rest ih =>
    intro t ht
    have hhead : 0 < tx.amount := h tx (List.mem_cons_self _ _)
    have hrest : ∀ u ∈ rest, 0 < u.amount := fun u hu => h u (List.mem_cons_of_mem _ hu)
    by_cases h0 : tx.id = id
    · by_cases hle : tx.amount ≤ amount
      · simp only [settleTransaction, if_pos h0, if_pos hle] at ht
        rcases List.mem_cons.mp ht with rfl | hmem
        · exact hhead
        · exact hrest t hmem
      · simp only [settleTransaction, if_pos h0, if_neg hle] at ht
        rcases List.mem_cons.mp ht with rfl | hmem
        · show 0 < tx.amount - amount
          omega
        · rcases List.mem_append.mp hmem with hmem' | hmem'
          · exact hrest t hmem'
          · rcases List.mem_singleton.mp hmem' with rfl
            exact ha
    · simp only [settleTransaction, if_neg h0] at ht
      rcases List.mem_cons.mp ht with rfl | hmem
      · exact hhead
      · exact ih hrest t hmem

lemma settleAmountForPerson_amounts_pos (now : Nat) (p : String) (a : ℤ) (note : String)
    (txs : List DebtTransaction) (h : ∀ tx ∈ txs, 0 < tx.amount) :
    ∀ t ∈ (settleAmountForPerson now p a note txs).1, 0 < t.amount := by
  intro t ht
  simp only [settleAmountForPerson] at ht
  by_cases h1 : 0 < (personTotals p txs).1 - (personTotals p txs).2
  · rw [if_pos h1] at ht
    dsimp only at ht
    exact allocatePass_pos _ _ _ _ _ _ _ (allocatePass_pos _ _ _ _ _ _ _ h) t ht
  · rw [if_neg h1] at ht
    by_cases h2 : (personTotals p txs).1 - (personTotals p txs).2 < 0
    · rw [if_pos h2] at ht
      dsimp only at ht
      exact allocatePass_pos _ _ _ _ _ _ _ (allocatePass_pos _ _ _ _ _ _ _ h) t ht
    · rw [if_neg h2] at ht
      by_cases h3 : (settleAllPass p now note txs).2.2 = false
      · rw [if_pos h3] at ht
        exact h t ht
      · rw [if_neg h3] at ht
        dsimp only at ht
        rw [settleAllPass_fst] at ht
        rcases List.mem_map.mp ht with ⟨u, hu, hmap⟩
        by_cases hc : u.personName = p ∧ u.isSettled = false
        · rw [if_pos hc] at hmap
          rw [← hmap]
          exact h u hu
        · rw [if_neg hc] at hmap
          rw [← hmap]
          exact h u hu

lemma settleAmountForPerson_transactionsFor (now : Nat) (p : String) (a : ℤ)
    (note : String) (q : String) (hq : q ≠ p) (txs : List DebtTransaction) :
    transactionsFor q (settleAmountForPerson now p a note txs).1
      = transactionsFor q txs := by
  simp only [settleAmountForPerson]
  by_cases h1 : 0 < (personTotals p txs).1 - (personTotals p txs).2
  · rw [if_pos h1]
    dsimp only
    rw [allocatePass_transactionsFor p TransactionType.Borrowed now note q hq,
      allocatePass_transactionsFor p TransactionType.Lent now note q hq]
  · rw [if_neg h1]
    by_cases h2 : (personTotals p txs).1 - (personTotals p txs).2 < 0
    · rw [if_pos h2]
      dsimp only
      rw [allocatePass_transactionsFor p TransactionType.Lent now note q hq,
        allocatePass_transactionsFor p TransactionType.Borrowed now note q hq]
    · rw [if_neg h2]
      by_cases h3 : (settleAllPass p now note txs).2.2 = false
      · rw [if_pos h3]
      · rw [if_neg h3]
        dsimp only
        rw [settleAllPass_transactionsFor p now note q hq]

/-- C1 (counterexample).  Scenario 1: with Lent 1000 and Borrowed 300 for
"John" the net balance is 700, but settling 700 does not leave net balance
`700 - 700 = 0`: the code reduces the lent record to 300 and instead fully
offsets the borrowed record, leaving net balance 300. -/
theorem settleForPerson_scenario1_not_monotonic :
    getPersonNetBalance "John" scenario1 = 700
    ∧ getPersonNetBalance "John" (settleAmountForPerson 2 "John" 700 "x" scenario1).1
        ≠ 700 - 700
    ∧ getPersonNetBalance "John" (settleAmountForPerson 2 "John" 700 "x" scenario1).1
        = 300 := by
  decide

/-- C1 (amended).  For a person with all record amounts positive, unsettled
lent total `L`, unsettled borrowed total `B`, nonzero net balance `n = L - B`,
and a requested amount `X` with `X = 0` or `0 < X ≤ |n|` (the code clamps
`X = 0` to `|n|`), the net balance after `settleForPerson` is:
for `n < 0` exactly `n + X` (the claimed `n - sign(n)·X`, so the monotonicity
claim holds on the borrowed-dominant side); but for `n > 0` it is
`n - X + min n B` — the claimed value only when the person has no unsettled
borrowed records (`B = 0`), because the offset loop additionally settles
borrowed records up to `n` regardless of `X`. -/
theorem settleForPerson_netBalance_after (now : Nat) (p note : String)
    (txs : List DebtTransaction) (X L B : ℤ)
    (hL : L = totalUnsettledFor p TransactionType.Lent txs)
    (hB : B = totalUnsettledFor p TransactionType.Borrowed txs)
    (hpos : ∀ tx ∈ txs, 0 < tx.amount)
    (hX : X = 0 ∨ (0 < X ∧ X ≤ |L - B|))
    (hn : L ≠ B) :
    getPersonNetBalance p (settleAmountForPerson now p X note txs).1
      = if B < L
        then (L - B) - (if X = 0 then L - B else X) + min (L - B) B
        else (L - B) + (if X = 0 then B - L else X) := by
  have hposm : ∀ k : TransactionType, ∀ t ∈ txs, t.personName = p → t.txType = k →
      t.isSettled = false → 0 < t.amount := fun k t ht _ _ _ => hpos t ht
  have hLnn : 0 ≤ L := hL ▸ totalUnsettledFor_nonneg _ _ _ (hposm _)
  have hBnn : 0 ≤ B := hB ▸ totalUnsettledFor_nonneg _ _ _ (hposm _)
  simp only [settleAmountForPerson, personTotals_eq, ← hL, ← hB]
  by_cases hcase : B < L
  · have hnet : 0 < L - B := by omega
    have habs : |L - B| = L - B := abs_of_pos hnet
    rw [habs] at hX
    rw [if_pos hnet]
    have hclamp : (if X = 0 ∨ L - B < X then L - B else X)
        = (if X = 0 then L - B else X) := by
      rcases hX with h0 | ⟨hx1, hx2⟩
      · rw [if_pos (Or.inl h0), if_pos h0]
      · rw [if_neg (by push_neg; exact ⟨by omega, by omega⟩), if_neg (by omega : ¬X = 0)]
    have hR_pos : 0 < (if X = 0 then L - B else X) := by
      rcases hX with h0 | ⟨hx1, _⟩
      · rw [if_pos h0]
        omega
      · rw [if_neg (by omega : ¬X = 0)]
        omega
    have hR_le : (if X = 0 then L - B else X) ≤ L - B := by
      rcases hX with h0 | ⟨hx1, hx2⟩
      · rw [if_pos h0]
      · rw [if_neg (by omega : ¬X = 0)]
        omega
    rw [hclamp, ite_self]
    generalize hgen : (if X = 0 then L - B else X) = R
    rw [hgen] at hR_pos hR_le
    dsimp only
    rw [getPersonNetBalance_eq]
    have hB1 : totalUnsettledFor p TransactionType.Borrowed
        (allocatePass p TransactionType.Lent now note txs R 0).1 = B := by
      rw [allocatePass_total_other p TransactionType.Lent now note p TransactionType.Borrowed
        (by simp) txs R 0, ← hB]
    have hL1 : totalUnsettledFor p TransactionType.Lent
        (allocatePass p TransactionType.Lent now note txs R 0).1 = L - R := by
      rw [allocatePass_total p TransactionType.Lent now note txs R 0 (by omega)
        (hposm TransactionType.Lent), ← hL]
      omega
    have hpos1 : ∀ t ∈ (allocatePass p TransactionType.Lent now note txs R 0).1,
        0 < t.amount := allocatePass_pos _ _ _ _ txs R 0 hpos
    have hL2 : totalUnsettledFor p TransactionType.Lent
        (allocatePass p TransactionType.Borrowed now note
          (allocatePass p TransactionType.Lent now note txs R 0).1 (L - B) 0).1
        = L - R := by
      rw [allocatePass_total_other p TransactionType.Borrowed now note p TransactionType.Lent
        (by simp) _ (L - B) 0, hL1]
    have hB2 : totalUnsettledFor p TransactionType.Borrowed
        (allocatePass p TransactionType.Borrowed now note
          (allocatePass p TransactionType.Lent now note txs R 0).1 (L - B) 0).1
        = B - min (L - B) B := by
      rw [allocatePass_total p TransactionType.Borrowed now note _ (L - B) 0 (by omega)
        (fun t ht _ _ _ => hpos1 t ht), hB1]
    rw [hL2, hB2, if_pos hcase]
    omega
  · have hnet : L - B < 0 := by omega
    have habs : |L - B| = B - L := by
      rw [abs_of_neg hnet]
      omega
    rw [habs] at hX
    rw [if_neg (by omega : ¬(0 < L - B)), if_pos hnet]
    have hclamp : (if X = 0 ∨ -(L - B) < X then -(L - B) else X)
        = (if X = 0 then B - L else X) := by
      rcases hX with h0 | ⟨hx1, hx2⟩
      · rw [if_pos (Or.inl h0), if_pos h0]
        omega
      · rw [if_neg (by push_neg; exact ⟨by omega, by omega⟩), if_neg (by omega : ¬X = 0)]
    have hR_pos : 0 < (if X = 0 then B - L else X) := by
      rcases hX with h0 | ⟨hx1, _⟩
      · rw [if_pos h0]
        omega
      · rw [if_neg (by omega : ¬X = 0)]
        omega
    have hR_le : (if X = 0 then B - L else X) ≤ B - L := by
      rcases hX with h0 | ⟨hx1, hx2⟩
      · rw [if_pos h0]
      · rw [if_neg (by omega : ¬X = 0)]
        omega
    rw [hclamp]
    generalize hgen : (if X = 0 then B - L else X) = R
    rw [hgen] at hR_pos hR_le
    rw [if_neg (by omega : ¬(L - B = 0))]
    rw [allocatePass_nonpos p TransactionType.Lent now note _ (L - B) 0 (by omega)]
    dsimp only
    rw [getPersonNetBalance_eq]
    have hL1 : totalUnsettledFor p TransactionType.Lent
        (allocatePass p TransactionType.Borrowed now note txs R 0).1 = L := by
      rw [allocatePass_total_other p TransactionType.Borrowed now note p TransactionType.Lent
        (by simp) txs R 0, ← hL]
    have hB1 : totalUnsettledFor p TransactionType.Borrowed
        (allocatePass p TransactionType.Borrowed now note txs R 0).1 = B - R := by
      rw [allocatePass_total p TransactionType.Borrowed now note txs R 0 (by omega)
        (hposm TransactionType.Borrowed), ← hB]
      omega
    rw [hL1, hB1, if_neg hcase]
    omega

/-- C1 (witness).  Borrowed 300 for "Wei" (net balance -300): settling 100
leaves net balance -200, as the amended statement computes. -/
theorem settleForPerson_netBalance_after_witness :
    getPersonNetBalance "Wei"
      (settleAmountForPerson 1 "Wei" 100 "wn"
        [mkTx "w1" TransactionType.Borrowed "Wei" 300]).1 = -200 :=
  (settleForPerson_netBalance_after 1 "Wei" "wn"
      [mkTx "w1" TransactionType.Borrowed "Wei" 300] 100 0 300
      (by decide) (by decide) (by decide) (by decide) (by decide)).trans (by decide)

/-- C2 (counterexample).  `SettleTransaction` performs no amount validation:
on the Scenario 2 store (Lent 500, id "a1") a call with amount -5 is not
rejected — it takes the split branch, raising the original record to 505 and
appending a settled record of amount -5. -/
theorem settleTransaction_negative_amount_not_rejected :
    (settleTransaction 1 "n2" "a1" (-5) "" scenario2).2 = true
    ∧ ((settleTransaction 1 "n2" "a1" (-5) "" scenario2).1.map DebtTransaction.amount)
        = [505, -5] := by
  decide

/-- C2 (amended).  `SettleTransaction` returns the NotFound error, leaving the
store unchanged, exactly when no record has the given id; with an existing id
it never errors, whatever the amount (there is no `amount ≤ 0` or
`amount > record.amount` validation). -/
theorem settleTransaction_error_contract (now : Nat) (newId id : String) (amount : ℤ)
    (note : String) (txs : List DebtTransaction) :
    ((settleTransaction now newId id amount note txs).2 = false ↔ findById id txs = none)
    ∧ (findById id txs = none →
        settleTransaction now newId id amount note txs = (txs, false)) :=
  ⟨settleTransaction_snd_false_iff now newId id amount note txs,
   settleTransaction_not_found now newId id amount note txs⟩

/-- C2 (witness).  An unknown id on the Scenario 2 store errors and leaves the
store unchanged. -/
theorem settleTransaction_error_contract_witness :
    settleTransaction 1 "n3" "zz" 5 "w" scenario2 = (scenario2, false) :=
  (settleTransaction_error_contract 1 "n3" "zz" 5 "w" scenario2).2 (by decide)

/-- C3 (counterexample).  A second settlement call on an already-settled id is
not rejected: on a store whose only record (id "s1", amount 100) is settled,
`SettleTransaction` succeeds and mutates the record again (overwriting its
settlement fields). -/
theorem settleTransaction_settled_id_not_rejected :
    (settleTransaction 2 "n4" "s1" 100 "again" settledStore).2 = true
    ∧ (settleTransaction 2 "n4" "s1" 100 "again" settledStore).1 ≠ settledStore := by
  decide

/-- C3 (amended).  `SettleTransaction` never consults the settled flag: a call
whose id matches an already-settled record succeeds, and with
`amount ≥ record.amount` it re-settles the record in place, overwriting
`settledDate`, `settlementAmount` (with the record's own amount) and
`settlementNote`; settled records are not terminal. -/
theorem settleTransaction_ignores_settled_flag (now : Nat) (newId id : String)
    (amount : ℤ) (note : String) (txs : List DebtTransaction) (tx : DebtTransaction)
    (hfind : findById id txs = some tx) (_hset : tx.isSettled = true)
    (hle : tx.amount ≤ amount) :
    settleTransaction now newId id amount note txs
      = (updateFirstById id (settleFull now note) txs, true) :=
  settleTransaction_found_full now newId id amount note txs tx hfind hle

/-- C3 (witness).  Re-settling the settled record of `settledStore`. -/
theorem settleTransaction_ignores_settled_flag_witness :
    settleTransaction 2 "n5" "s1" 100 "again" settledStore
      = (updateFirstById "s1" (settleFull 2 "again") settledStore, true) :=
  settleTransaction_ignores_settled_flag 2 "n5" "s1" 100 "again" settledStore
    ({ mkTx "s1" TransactionType.Lent "Mia" 100 with isSettled := true, settledDate := some 1 })
    (by decide) (by decide) (by decide)

/-- C6 (confirmed).  Protocol A partial settle: for a store whose first record
with the given id is `tx`, unsettled, and `0 < amount < tx.amount`, the call
reduces that record in place to `tx.amount - amount` (still unsettled) and
appends exactly one new record — `splitRecord`, settled at creation with
`amount = settlementAmount = amount`, the given note, and the
"(partial settlement)" marker on the copied description — so the store grows
by one and conservation holds: remaining plus the new record's amount equals
the original amount. -/
theorem settleTransaction_partial_split (now : Nat) (newId id : String) (amount : ℤ)
    (note : String) (txs : List DebtTransaction) (tx : DebtTransaction)
    (hfind : findById id txs = some tx) (hunsettled : tx.isSettled = false)
    (_h0 : 0 < amount) (hlt : amount < tx.amount) :
    settleTransaction now newId id amount note txs
      = (updateFirstById id (fun t => { t with amount := t.amount - amount }) txs
           ++ [splitRecord newId now note amount tx], true)
    ∧ (updateFirstById id (fun t => { t with amount := t.amount - amount }) txs
         ++ [splitRecord newId now note amount tx]).length = txs.length + 1
    ∧ findById id (updateFirstById id (fun t => { t with amount := t.amount - amount }) txs)
        = some { tx with amount := tx.amount - amount }
    ∧ ({ tx with amount := tx.amount - amount }).isSettled = false
    ∧ ({ tx with amount := tx.amount - amount }).amount
        + (splitRecord newId now note amount tx).amount = tx.amount := by
  refine ⟨settleTransaction_split_found now newId id amount note txs tx hfind hlt, ?_, ?_, ?_, ?_⟩
  · rw [List.length_append, updateFirstById_length]
    rfl
  · rw [findById_updateFirstById id (fun t => { t with amount := t.amount - amount })
      (fun _ => rfl) txs, hfind, Option.map_some']
  · exact hunsettled
  · show tx.amount - amount + amount = tx.amount
    omega

/-- C6 (witness).  Scenario 2: Lent 500 to "Asha", settle 200 with note
"partial cash". -/
theorem settleTransaction_partial_split_witness :
    settleTransaction 1 "n7" "a1" 200 "partial cash" scenario2
      = (updateFirstById "a1" (fun t => { t with amount := t.amount - 200 }) scenario2
           ++ [splitRecord "n7" 1 "partial cash" 200 (mkTx "a1" TransactionType.Lent "Asha" 500)],
          true) :=
  (settleTransaction_partial_split 1 "n7" "a1" 200 "partial cash" scenario2
    (mkTx "a1" TransactionType.Lent "Asha" 500) (by decide) (by decide) (by decide)
    (by decide)).1

/-- C7 (confirmed).  Protocol A full settle: for a store whose first record
with the given id is `tx`, unsettled, a call with exactly `tx.amount` settles
the record in place via `settleFull` (settled := true, settledDate := now,
settlementAmount := its amount, settlementNote := note); no new record is
created — the store keeps its length — and the record is still found at its
id in its settled form. -/
theorem settleTransaction_full_settle (now : Nat) (newId id : String)
    (note : String) (txs : List DebtTransaction) (tx : DebtTransaction)
    (hfind : findById id txs = some tx) (_hunsettled : tx.isSettled = false) :
    settleTransaction now newId id tx.amount note txs
      = (updateFirstById id (settleFull now note) txs, true)
    ∧ (updateFirstById id (settleFull now note) txs).length = txs.length
    ∧ findById id (updateFirstById id (settleFull now note) txs)
        = some (settleFull now note tx) := by
  refine ⟨settleTransaction_found_full now newId id tx.amount note txs tx hfind le_rfl,
    updateFirstById_length id _ txs, ?_⟩
  rw [findById_updateFirstById id (settleFull now note) (fun _ => rfl) txs, hfind,
    Option.map_some']

/-- C7 (witness).  Fully settling the Scenario 2 record (amount 500). -/
theorem settleTransaction_full_settle_witness :
    settleTransaction 3 "n6" "a1" 500 "done" scenario2
      = (updateFirstById "a1" (settleFull 3 "done") scenario2, true) :=
  (settleTransaction_full_settle 3 "n6" "a1" "done" scenario2
    (mkTx "a1" TransactionType.Lent "Asha" 500) (by decide) (by decide)).1

/-- C9 (confirmed).  Protocol A over-amount behaviour: with an existing id and
an amount strictly greater than the record's current amount, the call
succeeds (no error), the record is settled in place via `settleFull` — whose
`settlementAmount` is the record's own amount, not the requested one — and no
new record is created. -/
theorem settleTransaction_over_amount (now : Nat) (newId id : String) (amount : ℤ)
    (note : String) (txs : List DebtTransaction) (tx : DebtTransaction)
    (hfind : findById id txs = some tx) (hgt : tx.amount < amount) :
    settleTransaction now newId id amount note txs
      = (updateFirstById id (settleFull now note) txs, true)
    ∧ (updateFirstById id (settleFull now note) txs).length = txs.length
    ∧ findById id (updateFirstById id (settleFull now note) txs)
        = some (settleFull now note tx)
    ∧ (settleFull now note tx).settlementAmount = tx.amount := by
  refine ⟨settleTransaction_found_full now newId id amount note txs tx hfind (le_of_lt hgt),
    updateFirstById_length id _ txs, ?_, rfl⟩
  rw [findById_updateFirstById id (settleFull now note) (fun _ => rfl) txs, hfind,
    Option.map_some']

/-- C9 (witness).  Requesting 800 against the Scenario 2 record of amount
500: full in-place settle with settlementAmount 500. -/
theorem settleTransaction_over_amount_witness :
    settleTransaction 4 "n8" "a1" 800 "over" scenario2
      = (updateFirstById "a1" (settleFull 4 "over") scenario2, true) :=
  (settleTransaction_over_amount 4 "n8" "a1" 800 "over" scenario2
    (mkTx "a1" TransactionType.Lent "Asha" 500) (by decide) (by decide)).1

/-- C4 (code bug, evaluation at the failing input).  In the borrowed-dominant
store (Borrowed 300, Lent 100 for "Priya", net balance -200), a call
`settleForPerson("Priya", 0)` should — per the spec's offset rule and the
code's own comment "Also settle lent transactions up to the same amount
(offsetting)" — fully settle the opposite-kind Lent 100 record.  Instead,
because `offsetSettle` is initialised to the negative `netBalance` (the
`offsetSettle == 0` rewrite being dead for a strictly negative balance), the
offset loop never runs: the borrowed record is merely reduced to 100 and the
lent record is left untouched and unsettled. -/
theorem settleForPerson_borrowed_dominant_no_offset :
    (settleAmountForPerson 1 "Priya" 0 "" borrowedDominantStore).1
      = [{ mkTx "b1" TransactionType.Borrowed "Priya" 300 with amount := 100 },
         mkTx "l1" TransactionType.Lent "Priya" 100]
    ∧ (settleAmountForPerson 1 "Priya" 0 "" borrowedDominantStore).2 = 200
    ∧ totalUnsettledFor "Priya" TransactionType.Lent
        (settleAmountForPerson 1 "Priya" 0 "" borrowedDominantStore).1 = 100 := by
  decide

/-- C5 (counterexample).  Scenario 3: Lent 100 and Borrowed 100 to "Ravi"
(net balance 0).  `settleForPerson("Ravi", 0)` settles both records but
returns 200 — the sum of both sides — not the 100 the claim states. -/
theorem settleForPerson_scenario3_returns_sum :
    (settleAmountForPerson 1 "Ravi" 0 "paid" scenario3).2 = 200
    ∧ (settleAmountForPerson 1 "Ravi" 0 "paid" scenario3).2 ≠ 100 := by
  decide

/-- C5 (amended).  When the person's unsettled lent and borrowed totals are
equal and some unsettled record exists (amounts positive), `settleForPerson`
— for any requested amount — settles every unsettled record of the person
fully (each via `settleFull`, so with `settlementAmount` equal to that
record's own amount and the given note) and returns the total settled, which
is the sum of BOTH sides' totals: 200, not 100, in Scenario 3. -/
theorem settleForPerson_zero_net_settles_all (now : Nat) (p note : String) (a : ℤ)
    (txs : List DebtTransaction)
    (hzero : totalUnsettledFor p TransactionType.Lent txs
        = totalUnsettledFor p TransactionType.Borrowed txs)
    (hex : ∃ tx ∈ txs, tx.personName = p ∧ tx.isSettled = false)
    (hpos : ∀ tx ∈ txs, 0 < tx.amount) :
    (settleAmountForPerson now p a note txs).1
      = txs.map (fun tx =>
          if tx.personName = p ∧ tx.isSettled = false then settleFull now note tx else tx)
    ∧ (settleAmountForPerson now p a note txs).2
        = totalUnsettledFor p TransactionType.Lent txs
          + totalUnsettledFor p TransactionType.Borrowed txs := by
  have hposm : ∀ k : TransactionType, ∀ t ∈ txs, t.personName = p → t.txType = k →
      t.isSettled = false → 0 < t.amount := fun k t ht _ _ _ => hpos t ht
  rcases hex with ⟨tx, htx, hp, hs⟩
  have hsum : 0 < totalUnsettledFor p TransactionType.Lent txs
      + totalUnsettledFor p TransactionType.Borrowed txs := by
    have hLnn := totalUnsettledFor_nonneg p TransactionType.Lent txs (hposm _)
    have hBnn := totalUnsettledFor_nonneg p TransactionType.Borrowed txs (hposm _)
    by_cases hk : tx.txType = TransactionType.Lent
    · have := totalUnsettledFor_pos_of_mem p TransactionType.Lent txs tx htx hp hk hs
        (hposm _)
      omega
    · have := totalUnsettledFor_pos_of_mem p TransactionType.Borrowed txs tx htx hp
        (txType_eq_borrowed_of_ne hk) hs (hposm _)
      omega
  have hflag : (settleAllPass p now note txs).2.2 = true :=
    (settleAllPass_flag p now note txs).mpr ⟨tx, htx, hp, hs⟩
  simp only [settleAmountForPerson, personTotals_eq]
  rw [if_neg (by omega : ¬(0 < totalUnsettledFor p TransactionType.Lent txs
      - totalUnsettledFor p TransactionType.Borrowed txs)),
    if_neg (by omega : ¬(totalUnsettledFor p TransactionType.Lent txs
      - totalUnsettledFor p TransactionType.Borrowed txs < 0)),
    if_neg (by simp [hflag] : ¬((settleAllPass p now note txs).2.2 = false))]
  dsimp only
  rw [settleAllPass_fst, settleAllPass_sum, if_pos hsum]
  exact ⟨rfl, rfl⟩

/-- C5 (witness).  Scenario 3 instantiation: the call returns 200. -/
theorem settleForPerson_zero_net_settles_all_witness :
    (settleAmountForPerson 1 "Ravi" 0 "paid2" scenario3).2 = 200 :=
  ((settleForPerson_zero_net_settles_all 1 "Ravi" "paid2" 0 scenario3 (by decide)
    ⟨mkTx "r1" TransactionType.Lent "Ravi" 100, by decide⟩ (by decide)).2).trans (by decide)

/-- C8 (counterexample).  `AddDebtTransaction` performs no validation: a call
with amount -5 is not rejected and creates a record with amount -5. -/
theorem addDebtTransaction_negative_not_rejected :
    ((addDebtTransaction "neg1" TransactionType.Lent "Noa" (-5) "" 0 none 0 []).map
        DebtTransaction.amount) = [-5] := by
  decide

/-- C8 (amended).  The storage operations themselves reject nothing — but
positivity is preserved: every store state reachable from the empty store
through `addDebtTransaction` and `settleTransaction` calls with positive
amounts and `settleAmountForPerson` calls with arbitrary amounts has every
record's amount strictly positive (no record is created at, or reduced to, a
non-positive amount). -/
theorem reachable_amounts_positive (txs : List DebtTransaction) (h : Reachable txs) :
    ∀ tx ∈ txs, 0 < tx.amount := by
  induction h with
  | empty =>
    intro tx htx
    simp at htx
  | add newId k personName amount description date dueDate now txs ha _ ih =>
    intro tx htx
    simp only [addDebtTransaction] at htx
    rcases List.mem_append.mp htx with hmem | hmem
    · exact ih tx hmem
    · rcases List.mem_singleton.mp hmem with rfl
      exact ha
  | settleOne now newId id amount note txs ha _ ih =>
    exact settleTransaction_amounts_pos now newId id amount note txs ha ih
  | settlePerson now personName amount note txs _ ih =>
    exact settleAmountForPerson_amounts_pos now personName amount note txs ih

/-- C8 (witness).  The store reached by adding Lent 5 for "Gil" has its one
record positive. -/
theorem reachable_amounts_positive_witness :
    (0 : ℤ) < (mkTx "g1" TransactionType.Lent "Gil" 5).amount :=
  reachable_amounts_positive
    (addDebtTransaction "g1" TransactionType.Lent "Gil" 5 "" 0 none 0 [])
    (Reachable.add "g1" TransactionType.Lent "Gil" 5 "" 0 none 0 [] (by decide)
      Reachable.empty)
    (mkTx "g1" TransactionType.Lent "Gil" 5) (by decide)

/-- C10 (confirmed).  Person-locality frame property: for any person `q`
other than `p`, a `settleForPerson` call for `p` (any amount) and a
`settleTransaction` call on a record whose person is `p` leave `q`'s list of
transactions — hence `q`'s net balance and `q`'s unsettled transactions —
unchanged. -/
theorem settlement_person_frame (now : Nat) (p q note : String) (hq : q ≠ p)
    (txs : List DebtTransaction) :
    (∀ a : ℤ,
      transactionsFor q (settleAmountForPerson now p a note txs).1 = transactionsFor q txs
      ∧ getPersonNetBalance q (settleAmountForPerson now p a note txs).1
          = getPersonNetBalance q txs
      ∧ unsettledFor q (settleAmountForPerson now p a note txs).1 = unsettledFor q txs)
    ∧ (∀ (newId id : String) (a : ℤ) (tx : DebtTransaction),
        findById id txs = some tx → tx.personName = p →
        transactionsFor q (settleTransaction now newId id a note txs).1
            = transactionsFor q txs
        ∧ getPersonNetBalance q (settleTransaction now newId id a note txs).1
            = getPersonNetBalance q txs
        ∧ unsettledFor q (settleTransaction now newId id a note txs).1
            = unsettledFor q txs) := by
  constructor
  · intro a
    have hframe := settleAmountForPerson_transactionsFor now p a note q hq txs
    exact ⟨hframe, getPersonNetBalance_congr q _ _ hframe, unsettledFor_congr q _ _ hframe⟩
  · intro newId id a tx hfind hp
    have hp' : ¬(tx.personName = q) := fun hc => hq (hc.symm.trans hp)
    have hframe := settleTransaction_transactionsFor now newId id a note q txs tx hfind hp'
    exact ⟨hframe, getPersonNetBalance_congr q _ _ hframe, unsettledFor_congr q _ _ hframe⟩

/-- C10 (witness).  Settling with "John" on a store that also holds a record
for "Bob" leaves Bob's net balance unchanged. -/
theorem settlement_person_frame_witness :
    getPersonNetBalance "Bob"
      (settleAmountForPerson 1 "John" 0 "w"
        (scenario1 ++ [mkTx "q9" TransactionType.Lent "Bob" 50])).1
      = getPersonNetBalance "Bob" (scenario1 ++ [mkTx "q9" TransactionType.Lent "Bob" 50]) :=
  ((settlement_person_frame 1 "John" "Bob" "w" (by decide)
    (scenario1 ++ [mkTx "q9" TransactionType.Lent "Bob" 50])).1 0).2.1

end DebtQ
